import Mathlib

/-!
Verification of the conditional-jump opcode (`JumpI`) of the symbolic EVM
in `etk-z-evm/src/ops/jumpi.rs`.

The z3 terms used by the source (`BV::from_u64`, `BV::fresh_const`,
`Int::from_u64`, fresh integer constants, `_eq`, `ge`, `not`, `Bool::and`)
are embedded as syntax trees with a semantic evaluation into 256-bit words
(naturals modulo 2^256) and unbounded integers.  The z3 `Solver` is a stack
of assertion frames (`push` / `assert` / `pop`), and the solver's decision
procedure (`check` / `check_assumptions`) is a parameter of type `Check`:
the code under verification only observes its three-valued answers.
Semantic satisfiability of a query is `SatQ`.

`JumpI::outcomes` is transcribed as `outcomesGen` / `outcomes`; besides the
outcome list it returns the final solver state and the trace of
satisfiability queries issued, so that scope balancing and query counts are
provable.  `JumpI::execute` is transcribed as `execute`.  Parts of the
driver that the repository fragment only calls into (the `apply` step that
updates the program counter) are modelled from the spec and marked as such.
-/

namespace Etk

/-- A byte offset into the decoded program (Rust `Offset(usize)`). -/
structure Offset where
  val : Nat
deriving DecidableEq, Repr

/-- Symbolic 256-bit words: the z3 `BV<256>` terms the source builds, namely
`BV::from_u64` constants and `BV::fresh_const` variables. -/
inductive BVTerm where
  | const (v : Nat)
  | var (n : Nat)
deriving DecidableEq, Repr

/-- Symbolic integers: the z3 `Int` terms the source builds for gas
(`Int::from_u64` constants, fresh variables, and subtraction from the
`gas_remaining -= ...` update in `execute`). -/
inductive IntTerm where
  | const (v : Int)
  | var (n : Nat)
  | sub (a b : IntTerm)
deriving DecidableEq, Repr

/-- Symbolic booleans: the z3 `Bool` terms the source builds (`_eq` on
bitvectors, `ge` on integers, `not`, and `Bool::and`; the conjunction of a
list is folded from binary `and` and the empty conjunction `tt`). -/
inductive Formula where
  | bvEq (a b : BVTerm)
  | intGe (a b : IntTerm)
  | not (f : Formula)
  | and (a b : Formula)
  | tt
deriving DecidableEq, Repr

/-- `Bool::and(ctx, fs)`: conjunction of a list of formulas. -/
def Formula.bigAnd (fs : List Formula) : Formula := fs.foldr Formula.and Formula.tt

/-- An assignment of concrete values to the symbolic variables. -/
structure Env where
  bv : Nat → Nat
  int : Nat → Int

/-- The word size: 256-bit machine words. -/
def w256 : Nat := 2 ^ 256

/-- Value of a bitvector term under an assignment (modulo 2^256). -/
def BVTerm.eval (env : Env) : BVTerm → Nat
  | .const v => v % w256
  | .var n => env.bv n % w256

/-- Value of an integer term under an assignment. -/
def IntTerm.eval (env : Env) : IntTerm → Int
  | .const v => v
  | .var n => env.int n
  | .sub a b => a.eval env - b.eval env

/-- Truth value of a formula under an assignment. -/
def Formula.eval (env : Env) : Formula → Bool
  | .bvEq a b => a.eval env == b.eval env
  | .intGe a b => decide (b.eval env ≤ a.eval env)
  | .not f => ! f.eval env
  | .and a b => a.eval env && b.eval env
  | .tt => true

/-- The z3 `Solver`: a stack of assertion frames.  The head frame is the
most recently pushed scope. -/
structure Solver where
  frames : List (List Formula)
deriving DecidableEq, Repr

/-- `solver.push()`: open a fresh speculative scope. -/
def Solver.push (s : Solver) : Solver := ⟨[] :: s.frames⟩

/-- `solver.assert(f)`: add an assertion to the current scope. -/
def Solver.assert (s : Solver) (f : Formula) : Solver :=
  match s.frames with
  | [] => ⟨[[f]]⟩
  | h :: t => ⟨(f :: h) :: t⟩

/-- `solver.pop(1)`: discard the most recently pushed scope. -/
def Solver.pop (s : Solver) : Solver := ⟨s.frames.tail⟩

/-- All formulas currently asserted, across every scope. -/
def Solver.assertions (s : Solver) : List Formula := s.frames.flatten

/-- The three-valued z3 answer (`z3::SatResult`). -/
inductive SatResult where
  | sat
  | unsat
  | unknown
deriving DecidableEq, Repr

/-- The solver's decision procedure, as observed by the code:
`check_assumptions` receives the current solver state and a list of
assumption formulas (`check()` is the case of no assumptions). -/
abbrev Check := Solver → List Formula → SatResult

/-- Semantic satisfiability of a query: some assignment satisfies every
asserted formula together with every assumption.  This is the answer a
sound and complete solver reports as `sat`. -/
def SatQ (s : Solver) (extra : List Formula) : Prop :=
  ∃ env : Env, ∀ f ∈ s.assertions ++ extra, f.eval env = true

/-- Halting reasons of the modeled machine (the variants `JumpI` uses). -/
inductive Halt where
  | stackUnderflow
  | outOfGas
  | invalidJumpDest
deriving DecidableEq, Repr

/-- Non-halting continuations (`Run`): fall through or jump to an offset. -/
inductive Run where
  | advance
  | jump (o : Offset)
deriving DecidableEq, Repr

/-- Result of attempting the current instruction (`Outcome`). -/
inductive Outcome where
  | halt (h : Halt)
  | run (r : Run)
deriving DecidableEq, Repr

/-- The state `JumpI::outcomes` reads from the `ZEvm` driver: the live
solver, the current execution's stack (head is the top, `peek(0)`), its
symbolic remaining gas, and the jump-destination table
(`evm.constants.destinations()`), iterated in list order. -/
structure ZEvm where
  solver : Solver
  stack : List BVTerm
  gasRemaining : IntTerm
  destinations : List Offset

/-- The fixed-cost coverage predicate `covers_cost = gas_remaining ≥ 10`. -/
def coversCost (evm : ZEvm) : Formula := .intGe evm.gasRemaining (.const 10)

/-- The operand the source reads as the jump destination:
`execution.stack.peek(0).unwrap()`, the top of the stack. -/
def destTerm (evm : ZEvm) : BVTerm := (evm.stack.get? 0).getD (.const 0)

/-- The fall-through condition the source builds:
`execution.stack.peek(1).unwrap()._eq(0)` — the second stack element,
compared against zero. -/
def advanceFormula (evm : ZEvm) : Formula :=
  .bvEq ((evm.stack.get? 1).getD (.const 0)) (.const 0)

/-- `possible_dest._eq(dest)`: the destination equals a given table offset. -/
def canJump (dest : BVTerm) (o : Offset) : Formula := .bvEq (.const o.val) dest

/-- The nested speculative scope `outcomes` opens: push, then assert that
the jump is taken (`¬advance`). -/
def jumpScopeSolver (evm : ZEvm) : Solver :=
  (evm.solver.push).assert (advanceFormula evm).not

/-- Result of the loop over the jump-destination table: the accumulated
negations (`possible_dests`), the appended outcomes, and the queries made. -/
structure LoopRes where
  negs : List Formula
  outs : List Outcome
  queries : List (Solver × List Formula)
deriving DecidableEq, Repr

/-- The `for (offset, _) in evm.constants.destinations()` loop of
`JumpI::outcomes`: for each table offset, query `destination == offset`
within the jump scope; on `Sat`, record the negation and append
`Run(Jump(offset))`. -/
def destLoop (check : Check) (s : Solver) (dest : BVTerm) : List Offset → LoopRes
  | [] => ⟨[], [], []⟩
  | o :: rest =>
    let cj := canJump dest o
    let r := destLoop check s dest rest
    if check s [cj] = .sat then
      ⟨cj.not :: r.negs, .run (.jump o) :: r.outs, (s, [cj]) :: r.queries⟩
    else
      ⟨r.negs, r.outs, (s, [cj]) :: r.queries⟩

/-- Result of `outcomes`: the outcome list the function returns, the solver
state it leaves behind, and the trace of satisfiability queries it issued
(each as the solver state at the time plus the assumption list). -/
structure OutRes where
  outcomes : List Outcome
  solver : Solver
  queries : List (Solver × List Formula)
deriving DecidableEq, Repr

/-- `JumpI::outcomes`, transcribed from `jumpi.rs`, generic in the two
operand terms (instantiated with the source's operand reading in
`outcomes` and with the spec's words in `specOperandOutcomes`):
stack-depth guard, out-of-gas query, gas-coverage query, nested jump scope
with the destination loop and the invalid-destination query, scope pop,
and the fall-through query. -/
def outcomesGen (check : Check) (evm : ZEvm) (dest : BVTerm) (advance : Formula) : OutRes :=
  let covers := coversCost evm
  if evm.stack.length < 2 then
    ⟨[.halt .stackUnderflow], evm.solver, []⟩
  else
    let gasOuts : List Outcome :=
      if check evm.solver [covers.not] = .sat then [.halt .outOfGas] else []
    if check evm.solver [covers] = .sat then
      let s1 := (evm.solver.push).assert advance.not
      let jumpRes : List Outcome × List (Solver × List Formula) :=
        if check s1 [] = .sat then
          let r := destLoop check s1 dest evm.destinations
          let bad := Formula.bigAnd r.negs
          let invOuts : List Outcome :=
            if check s1 [bad] = .sat then [.halt .invalidJumpDest] else []
          (r.outs ++ invOuts, r.queries ++ [(s1, [bad])])
        else ([], [])
      let s2 := s1.pop
      let advOuts : List Outcome :=
        if check s2 [advance] = .sat then [.run .advance] else []
      ⟨gasOuts ++ jumpRes.1 ++ advOuts, s2,
        [(evm.solver, [covers.not]), (evm.solver, [covers]), (s1, [])]
          ++ jumpRes.2 ++ [(s2, [advance])]⟩
    else
      ⟨gasOuts, evm.solver, [(evm.solver, [covers.not]), (evm.solver, [covers])]⟩

/-- `JumpI::outcomes` with the operands read the way the source reads them:
top of stack is the destination, second element is the condition. -/
def outcomes (check : Check) (evm : ZEvm) : OutRes :=
  outcomesGen check evm (destTerm evm) (advanceFormula evm)

/-- The outcome list returned by `JumpI::outcomes`. -/
def outcomesList (check : Check) (evm : ZEvm) : List Outcome :=
  (outcomes check evm).outcomes

/-- Following the spec's words ("`condition` (top) and `destination`
(second)"): the destination read from the SECOND stack element. -/
def specDestTerm (evm : ZEvm) : BVTerm := (evm.stack.get? 1).getD (.const 0)

/-- Following the spec's words: the fall-through condition read from the
TOP stack element. -/
def specAdvanceFormula (evm : ZEvm) : Formula :=
  .bvEq ((evm.stack.get? 0).getD (.const 0)) (.const 0)

/-- The enumeration as the spec's stack contract describes it: identical
control flow, but with condition on top and destination second. -/
def specOperandOutcomes (check : Check) (evm : ZEvm) : OutRes :=
  outcomesGen check evm (specDestTerm evm) (specAdvanceFormula evm)

/-- Extract the offset of a `Run(Jump(o))` outcome. -/
def jumpTarget : Outcome → Option Offset
  | .run (.jump o) => some o
  | _ => none

/-- The jump targets offered by an outcome list, in order. -/
def jumpTargets (l : List Outcome) : List Offset := l.filterMap jumpTarget

/-- The error channel of `execute` (`Error<S::Error>`); `JumpI::execute`
never constructs it. -/
inductive EvmError where
  | storage
deriving DecidableEq, Repr

/-- The mutable execution state `JumpI::execute` works on: program counter,
symbolic remaining gas, and the stack (head is the top). -/
structure ExecState where
  pc : Offset
  gasRemaining : IntTerm
  stack : List BVTerm
deriving DecidableEq, Repr

/-- `JumpI::execute`, transcribed from `jumpi.rs`: deduct the fixed cost of
10 from the gas, pop the destination then the condition (`none` models the
`unwrap` panic on an underflowing stack), and assert the constraint of the
committed branch: `condition ≠ 0` and `destination == offset` for a jump,
`condition == 0` for a fall-through.  The body always returns `Ok`. -/
def execute (run : Run) (solver : Solver) (ex : ExecState) :
    Option (Except EvmError (Solver × ExecState)) :=
  let gasAfter := IntTerm.sub ex.gasRemaining (.const 10)
  match ex.stack with
  | dest :: cmp :: rest =>
    let willAdvance := Formula.bvEq cmp (.const 0)
    let solverAfter :=
      match run with
      | .jump o => (solver.assert willAdvance.not).assert (.bvEq dest (.const o.val))
      | .advance => solver.assert willAdvance
    some (.ok (solverAfter, { ex with gasRemaining := gasAfter, stack := rest }))
  | _ => none

/-- Following the spec's words ("unconditionally pop `condition` and
`destination`"): the commit step with the condition popped first and the
destination second. -/
def specExecute (run : Run) (solver : Solver) (ex : ExecState) :
    Option (Except EvmError (Solver × ExecState)) :=
  let gasAfter := IntTerm.sub ex.gasRemaining (.const 10)
  match ex.stack with
  | cond :: dst :: rest =>
    let willAdvance := Formula.bvEq cond (.const 0)
    let solverAfter :=
      match run with
      | .jump o => (solver.assert willAdvance.not).assert (.bvEq dst (.const o.val))
      | .advance => solver.assert willAdvance
    some (.ok (solverAfter, { ex with gasRemaining := gasAfter, stack := rest }))
  | _ => none

/-- Modelled from the spec: the `ZEvm::apply` driver step, whose source is
not part of the given fragment.  Per the spec it invokes the opcode's
`execute` and sets the program counter: to the target offset for
`Run(Jump(o))`, and to the next instruction for `Run(Advance)`. -/
def applyRun (run : Run) (solver : Solver) (ex : ExecState) :
    Option (Except EvmError (Solver × ExecState)) :=
  match execute run solver ex with
  | some (.ok (s, e)) =>
    some (.ok (s, { e with pc := match run with
                                 | .jump o => o
                                 | .advance => ⟨ex.pc.val + 1⟩ }))
  | other => other

/-- Project the solver out of an `execute` result (dummy on panic/error). -/
def solverOf : Option (Except EvmError (Solver × ExecState)) → Solver
  | some (.ok (s, _)) => s
  | _ => ⟨[]⟩

/-- Whether an `execute` result is a successful `Ok` (no panic, no error). -/
def isOkSome : Option (Except EvmError (Solver × ExecState)) → Bool
  | some (.ok _) => true
  | _ => false

/-- A solver with one empty base frame: the state of a freshly built
engine before any permanent assertion. -/
def baseSolver : Solver := ⟨[[]]⟩

/-- The all-zero assignment. -/
def envZero : Env := ⟨fun _ => 0, fun _ => 0⟩

/-- An assignment giving every integer variable the value 10. -/
def envTen : Env := ⟨fun _ => 0, fun _ => 10⟩

/-- An assignment giving every bitvector variable the value 1. -/
def envBvOne : Env := ⟨fun _ => 1, fun _ => 0⟩

/-- The assignment condition ↦ 1, destination ↦ 2. -/
def envBv12 : Env := ⟨fun n => if n = 0 then 1 else 2, fun _ => 0⟩

/-- The assignment condition ↦ 1, destination ↦ 3. -/
def envBv13 : Env := ⟨fun n => if n = 0 then 1 else 3, fun _ => 0⟩

/-- Scenario E (`tests::unrestricted`): fresh symbolic condition (variable
0, second on the stack) and destination (variable 1, on top), unconstrained
symbolic gas, and valid jump destinations at offsets 1 and 2. -/
def evmE : ZEvm :=
  ⟨baseSolver, [.var 1, .var 0], .var 0, [⟨1⟩, ⟨2⟩]⟩

/-- Scenario B (`tests::not_enough_gas`): gas fixed at 9, destination 29 on
top, condition 0 second, no valid jump destinations. -/
def evmB : ZEvm :=
  ⟨baseSolver, [.const 29, .const 0], .const 9, []⟩

/-- Scenario D (`tests::invalid_jump_only`): gas fixed at 10, destination
29 on top, condition 1 second, no valid jump destinations. -/
def evmD : ZEvm :=
  ⟨baseSolver, [.const 29, .const 1], .const 10, []⟩

/-- An underflowing state: a single stack element. -/
def evmU : ZEvm :=
  ⟨baseSolver, [.const 29], .const 10, [⟨1⟩]⟩

/-- A state separating the two operand readings: 0 on top, 1 second, gas
fixed at 10, and offset 0 a valid jump destination. -/
def evmC7 : ZEvm :=
  ⟨baseSolver, [.const 0, .const 1], .const 10, [⟨0⟩]⟩

/-- The execution state matching `evmC7`. -/
def exC7 : ExecState := ⟨⟨0⟩, .const 10, [.const 0, .const 1]⟩

/-- A concrete execution state with two symbolic stack elements. -/
def exW : ExecState := ⟨⟨0⟩, .var 0, [.var 1, .var 0]⟩

/-- A solver that answers `sat` to every query; semantically correct on
every satisfiable query. -/
def constSat : Check := fun _ _ => .sat

/-- A solver answering scenario B's queries the way z3 does: with gas fixed
at 9, coverage of the cost 10 is unsatisfiable and everything else asked in
that scenario is satisfiable. -/
def checkB : Check := fun _ e =>
  if e = [Formula.intGe (.const 9) (.const 10)] then .unsat else .sat

/-- A solver answering scenario D's queries the way z3 does: with gas fixed
at 10, running out of gas is unsatisfiable, and with condition fixed at 1
the fall-through is unsatisfiable; everything else asked is satisfiable. -/
def checkD : Check := fun _ e =>
  if e = [(Formula.intGe (.const 10) (.const 10)).not] then .unsat
  else if e = [Formula.bvEq (.const 1) (.const 0)] then .unsat
  else .sat

/-- A solver answering the queries of both operand readings on `evmC7` the
way z3 does: out-of-gas is unsatisfiable (gas is exactly 10); the
destination (top, 0) missing the table (whose only entry is 0) is
unsatisfiable; the
condition (second, 1) being zero is unsatisfiable; the jump scope is
unsatisfiable when `¬(0 = 0)` has been asserted (the spec's operand
reading); everything else asked is satisfiable. -/
def checkC7 : Check := fun s e =>
  if e = [(Formula.intGe (.const 10) (.const 10)).not] then .unsat
  else if e = [Formula.bigAnd [(Formula.bvEq (.const 0) (.const 0)).not]] then .unsat
  else if e = [Formula.bvEq (.const 1) (.const 0)] then .unsat
  else if e = [] then
    (if (Formula.bvEq (.const 0) (.const 0)).not ∈ s.assertions then .unsat else .sat)
  else .sat

/-- A solver that reports `unknown` exactly on scenario E's
invalid-destination query (the conjunction of the accumulated negations for
offsets 1 and 2) and `sat` elsewhere. -/
def checkUnknownOnBad : Check := fun _ e =>
  if e = [Formula.bigAnd [(canJump (.var 1) ⟨1⟩).not, (canJump (.var 1) ⟨2⟩).not]] then .unknown
  else .sat

end Etk

namespace Etk

/-! ## Helper lemmas -/

/-- Popping the scope opened by a push-then-assert restores the solver
exactly: the speculative frame and its assumption vanish. -/
theorem Solver.push_assert_pop (s : Solver) (f : Formula) : ((s.push).assert f).pop = s := rfl

/-- Asserting a formula adds exactly that formula to the assertion set. -/
theorem Solver.assertions_assert (s : Solver) (f : Formula) :
    (s.assert f).assertions = f :: s.assertions := by
  cases s with
  | mk frames => cases frames <;> simp [Solver.assert, Solver.assertions]

/-- The outcomes produced by the destination loop are exactly the jump
outcomes of the offsets whose query answered `Sat`, in table order. -/
theorem destLoop_outs (check : Check) (s : Solver) (d : BVTerm) (offs : List Offset) :
    (destLoop check s d offs).outs =
      (offs.filter fun o => check s [canJump d o] == SatResult.sat).map
        fun o => Outcome.run (.jump o) := by
  induction offs with
  | nil => rfl
  | cons o rest ih =>
    by_cases hc : check s [canJump d o] = SatResult.sat
    · simp [destLoop, hc, ih]
    · simp [destLoop, hc, ih]

/-- Extracting jump targets undoes mapping offsets to jump outcomes. -/
theorem filterMap_jumpTarget_map (l : List Offset) :
    (l.map fun o => Outcome.run (Run.jump o)).filterMap jumpTarget = l := by
  induction l with
  | nil => rfl
  | cons o rest ih => simp [jumpTarget, ih]

/-- Variant of the previous lemma in composed form, as produced by `simp`. -/
theorem filterMap_jumpTarget_comp (l : List Offset) :
    l.filterMap (jumpTarget ∘ fun o => Outcome.run (Run.jump o)) = l := by
  induction l with
  | nil => rfl
  | cons o rest ih => simp [jumpTarget, ih, List.filterMap_cons, Function.comp]

/-- A query satisfiable together with an assumption is satisfiable without it. -/
theorem SatQ_weaken {s : Solver} {f : Formula} (h : SatQ s [f]) : SatQ s [] := by
  obtain ⟨env, henv⟩ := h
  exact ⟨env, fun g hg => henv g (List.mem_append_left _ (by simpa using hg))⟩

/-! ## Claim theorems -/

/-- Claim C6: for every execution state whose stack has fewer than two
elements, `outcomes()` returns exactly `[Halt(StackUnderflow)]`, issues no
solver satisfiability query, and leaves the solver untouched. -/
theorem c6_underflow (check : Check) (evm : ZEvm) (h : evm.stack.length < 2) :
    outcomes check evm = ⟨[Outcome.halt Halt.stackUnderflow], evm.solver, []⟩ := by
  simp [outcomes, outcomesGen, h]

/-- Witness for C6 at a concrete one-element stack. -/
theorem c6_underflow_witness :
    outcomes constSat evmU = ⟨[Outcome.halt Halt.stackUnderflow], evmU.solver, []⟩ :=
  c6_underflow constSat evmU (by decide)

/-- Claim C9: for every input state and every solver behaviour, the solver
state after `outcomes()` returns equals the solver state on entry — the
speculative scope opened for the jump assumption is closed on every exit
path, so no speculative assumption leaks into the permanent
path-constraint stack. -/
theorem c9_scopes_balanced (check : Check) (evm : ZEvm) :
    (outcomes check evm).solver = evm.solver := by
  by_cases h1 : evm.stack.length < 2
  · simp [outcomes, outcomesGen, h1]
  · by_cases h2 : check evm.solver [coversCost evm] = SatResult.sat
    · simp [outcomes, outcomesGen, h1, h2, Solver.push_assert_pop]
    · simp [outcomes, outcomesGen, h1, h2]

/-- Claim C10: with at least two stack elements, the two guarded peeks of
`outcomes` succeed and `execute`'s two unguarded pops succeed, returning
`Ok` — the `unwrap` panic and the error channel are unreachable. -/
theorem c10_depth_precondition (run : Run) (solver : Solver) (ex : ExecState)
    (h : 2 ≤ ex.stack.length) :
    (ex.stack.get? 0).isSome = true ∧ (ex.stack.get? 1).isSome = true ∧
      isOkSome (execute run solver ex) = true := by
  rcases hst : ex.stack with _ | ⟨d, _ | ⟨c, rest⟩⟩
  · rw [hst] at h; simp at h
  · rw [hst] at h; simp at h
  · simp [hst, execute, isOkSome]

/-- Witness for C10 at a concrete two-element stack. -/
theorem c10_depth_witness :
    (exW.stack.get? 0).isSome = true ∧ (exW.stack.get? 1).isSome = true ∧
      isOkSome (execute (.jump ⟨2⟩) baseSolver exW) = true :=
  c10_depth_precondition (.jump ⟨2⟩) baseSolver exW (by decide)

/-- Claim C2: committing a `Run` outcome on a stack with two elements pops
exactly those two elements, turns `gas_remaining` into a term whose value
is exactly 10 less under every assignment, asserts `condition ≠ 0` and
`destination = o` and sets the program counter to `o` for `Run(Jump(o))`,
and asserts `condition = 0` and sets the program counter to the next
instruction for `Run(Advance)` (the counter update is the spec-modelled
driver step `applyRun`). -/
theorem c2_execute_commit (solver : Solver) (ex : ExecState) (d c : BVTerm)
    (rest : List BVTerm) (o : Offset) (hs : ex.stack = d :: c :: rest) :
    applyRun (.jump o) solver ex =
      some (.ok ((solver.assert (Formula.bvEq c (.const 0)).not).assert
          (.bvEq d (.const o.val)),
        ⟨o, .sub ex.gasRemaining (.const 10), rest⟩)) ∧
    applyRun .advance solver ex =
      some (.ok (solver.assert (.bvEq c (.const 0)),
        ⟨⟨ex.pc.val + 1⟩, .sub ex.gasRemaining (.const 10), rest⟩)) ∧
    (∀ env : Env,
      (IntTerm.sub ex.gasRemaining (.const 10)).eval env = ex.gasRemaining.eval env - 10) ∧
    ((solver.assert (Formula.bvEq c (.const 0)).not).assert
        (.bvEq d (.const o.val))).assertions
      = Formula.bvEq d (.const o.val) :: (Formula.bvEq c (.const 0)).not
          :: solver.assertions ∧
    (solver.assert (.bvEq c (.const 0))).assertions
      = Formula.bvEq c (.const 0) :: solver.assertions := by
  refine ⟨?_, ?_, fun env => rfl, ?_, ?_⟩
  · simp [applyRun, execute, hs]
  · simp [applyRun, execute, hs]
  · simp [Solver.assertions_assert]
  · simp [Solver.assertions_assert]

/-- Witness for C2 at a concrete state: committing `Run(Jump(2))` on the
stack `[destination, condition]`. -/
theorem c2_execute_witness :
    applyRun (.jump ⟨2⟩) baseSolver exW =
      some (.ok ((baseSolver.assert (Formula.bvEq (.var 0) (.const 0)).not).assert
          (.bvEq (.var 1) (.const 2)),
        ⟨⟨2⟩, .sub exW.gasRemaining (.const 10), []⟩)) :=
  (c2_execute_commit baseSolver exW (.var 1) (.var 0) [] ⟨2⟩ rfl).1

/-- Claim C7 (amended): the conditional jump consumes the two top stack
elements with DESTINATION as the topmost element and CONDITION as the
second: `outcomes` reads the top as the jump destination and the second as
the branch condition, and `execute` pops the destination first and the
condition second. -/
theorem c7_operand_order (evm : ZEvm) (ex : ExecState) (solver : Solver)
    (d c : BVTerm) (r1 r2 : List BVTerm) (o : Offset)
    (hse : evm.stack = d :: c :: r1) (hsx : ex.stack = d :: c :: r2) :
    destTerm evm = d ∧
    advanceFormula evm = .bvEq c (.const 0) ∧
    execute (.jump o) solver ex =
      some (.ok ((solver.assert (Formula.bvEq c (.const 0)).not).assert
          (.bvEq d (.const o.val)),
        ⟨ex.pc, .sub ex.gasRemaining (.const 10), r2⟩)) ∧
    execute .advance solver ex =
      some (.ok (solver.assert (.bvEq c (.const 0)),
        ⟨ex.pc, .sub ex.gasRemaining (.const 10), r2⟩)) := by
  refine ⟨?_, ?_, ?_, ?_⟩ <;> simp [destTerm, advanceFormula, execute, hse, hsx]

/-- Witness for the amended C7 at a concrete symbolic state. -/
theorem c7_operand_witness :
    destTerm evmE = .var 1 ∧
    advanceFormula evmE = .bvEq (.var 0) (.const 0) ∧
    execute (.jump ⟨1⟩) baseSolver exW =
      some (.ok ((baseSolver.assert (Formula.bvEq (.var 0) (.const 0)).not).assert
          (.bvEq (.var 1) (.const 1)),
        ⟨exW.pc, .sub exW.gasRemaining (.const 10), []⟩)) ∧
    execute .advance baseSolver exW =
      some (.ok (baseSolver.assert (.bvEq (.var 0) (.const 0)),
        ⟨exW.pc, .sub exW.gasRemaining (.const 10), []⟩)) :=
  c7_operand_order evmE exW baseSolver (.var 1) (.var 0) [] [] ⟨1⟩ rfl rfl

/-- Counterexample for C7 as stated: on the state with 0 on top and 1
second (gas 10, table offset 0, and a solver answering every issued query
semantically correctly for both operand readings), the source's reading
offers `[Run(Jump(0))]` while the spec's reading (condition on top,
destination second) would offer `[Run(Advance)]`; the committed solver
constraints of `execute` likewise differ from the spec's reading. -/
theorem c7_counterexample :
    outcomesList checkC7 evmC7 = [Outcome.run (.jump ⟨0⟩)] ∧
    (specOperandOutcomes checkC7 evmC7).outcomes = [Outcome.run .advance] ∧
    outcomesList checkC7 evmC7 ≠ (specOperandOutcomes checkC7 evmC7).outcomes ∧
    solverOf (execute (.jump ⟨0⟩) baseSolver exC7)
      ≠ solverOf (specExecute (.jump ⟨0⟩) baseSolver exC7) := by
  exact ⟨by decide, by decide, by decide, by decide⟩

/-- Claim C8 (code behaviour at the failing input): with a solver that
answers `unknown` on scenario E's invalid-destination query, `outcomes()`
silently returns the partial list without `Halt(InvalidJumpDest)` and
without surfacing any failure — the `unknown` answer is treated exactly
like `unsat`. -/
theorem c8_unknown_dropped :
    outcomesList checkUnknownOnBad evmE =
      [Outcome.halt Halt.outOfGas, Outcome.run (.jump ⟨1⟩), Outcome.run (.jump ⟨2⟩),
        Outcome.run .advance] := by
  decide

/-- Claim C1 (amended): for a fully symbolic condition and destination,
unconstrained symbolic gas, and valid jump destinations at offsets 1 and 2,
every solver that answers `sat` on semantically satisfiable queries makes
`outcomes()` return exactly `[Halt(OutOfGas), Run(Jump(1)), Run(Jump(2)),
Halt(InvalidJumpDest), Run(Advance)]` — the invalid-destination outcome is
appended AFTER the jump outcomes. -/
theorem c1_order (check : Check)
    (hc : ∀ s e, SatQ s e → check s e = SatResult.sat) :
    outcomesList check evmE =
      [Outcome.halt Halt.outOfGas, Outcome.run (.jump ⟨1⟩), Outcome.run (.jump ⟨2⟩),
        Outcome.halt Halt.invalidJumpDest, Outcome.run .advance] := by
  have hq1 : check ⟨[[]]⟩ [(Formula.intGe (.var 0) (.const 10)).not] = SatResult.sat :=
    hc _ _ ⟨envZero, by decide⟩
  have hq2 : check ⟨[[]]⟩ [Formula.intGe (.var 0) (.const 10)] = SatResult.sat :=
    hc _ _ ⟨envTen, by decide⟩
  have hq3 : check ⟨[[(Formula.bvEq (.var 0) (.const 0)).not], []]⟩ [] = SatResult.sat :=
    hc _ _ ⟨envBvOne, by decide⟩
  have hj1 : check ⟨[[(Formula.bvEq (.var 0) (.const 0)).not], []]⟩
      [Formula.bvEq (.const 1) (.var 1)] = SatResult.sat :=
    hc _ _ ⟨envBvOne, by decide⟩
  have hj2 : check ⟨[[(Formula.bvEq (.var 0) (.const 0)).not], []]⟩
      [Formula.bvEq (.const 2) (.var 1)] = SatResult.sat :=
    hc _ _ ⟨envBv12, by decide⟩
  have hbad : check ⟨[[(Formula.bvEq (.var 0) (.const 0)).not], []]⟩
      [Formula.bigAnd [(Formula.bvEq (.const 1) (.var 1)).not,
        (Formula.bvEq (.const 2) (.var 1)).not]] = SatResult.sat :=
    hc _ _ ⟨envBv13, by decide⟩
  have hadv : check ⟨[[]]⟩ [Formula.bvEq (.var 0) (.const 0)] = SatResult.sat :=
    hc _ _ ⟨envZero, by decide⟩
  simp [outcomesList, outcomes, outcomesGen, destLoop, evmE, baseSolver, coversCost,
    destTerm, advanceFormula, canJump, Solver.push, Solver.assert, Solver.pop,
    hq1, hq2, hq3, hj1, hj2, hbad, hadv]

/-- Witness for the amended C1: the always-`sat` solver (correct here,
since every query scenario E issues is satisfiable) produces exactly the
amended sequence. -/
theorem c1_order_witness :
    outcomesList constSat evmE =
      [Outcome.halt Halt.outOfGas, Outcome.run (.jump ⟨1⟩), Outcome.run (.jump ⟨2⟩),
        Outcome.halt Halt.invalidJumpDest, Outcome.run .advance] :=
  c1_order constSat (fun _ _ _ => rfl)

/-- Counterexample for C1 as stated: at scenario E the source does not
return the spec's claimed order `[Halt(OutOfGas), Halt(InvalidJumpDest),
Run(Jump(1)), Run(Jump(2)), Run(Advance)]` — `Halt(InvalidJumpDest)` is
appended after the jump outcomes, not before them. -/
theorem c1_counterexample :
    outcomesList constSat evmE ≠
      [Outcome.halt Halt.outOfGas, Outcome.halt Halt.invalidJumpDest,
        Outcome.run (.jump ⟨1⟩), Outcome.run (.jump ⟨2⟩), Outcome.run .advance] := by
  decide

/-- Characterization of when `Halt(OutOfGas)` is offered: exactly when the
out-of-gas query answered `Sat` (no other branch produces it). -/
theorem mem_outOfGas_iff (check : Check) (evm : ZEvm) (d : BVTerm) (a : Formula)
    (h : 2 ≤ evm.stack.length) :
    Outcome.halt Halt.outOfGas ∈ (outcomesGen check evm d a).outcomes ↔
      check evm.solver [(coversCost evm).not] = SatResult.sat := by
  have h2 : ¬ evm.stack.length < 2 := by omega
  by_cases hq1 : check evm.solver [(coversCost evm).not] = SatResult.sat <;>
    by_cases hq2 : check evm.solver [coversCost evm] = SatResult.sat <;>
    by_cases hq3 : check ((evm.solver.push).assert a.not) [] = SatResult.sat <;>
    by_cases hqb : check ((evm.solver.push).assert a.not)
      [Formula.bigAnd (destLoop check ((evm.solver.push).assert a.not) d
        evm.destinations).negs] = SatResult.sat <;>
    by_cases hqa : check evm.solver [a] = SatResult.sat <;>
    simp [outcomesGen, h2, hq1, hq2, hq3, hqb, hqa, Solver.push_assert_pop, destLoop_outs]

/-- Characterization of when `Halt(InvalidJumpDest)` is offered: exactly
when the gas-coverage query, the jump-scope query and the
accumulated-negations query all answered `Sat`. -/
theorem mem_invalid_iff (check : Check) (evm : ZEvm) (d : BVTerm) (a : Formula)
    (h : 2 ≤ evm.stack.length) :
    Outcome.halt Halt.invalidJumpDest ∈ (outcomesGen check evm d a).outcomes ↔
      (check evm.solver [coversCost evm] = SatResult.sat ∧
       check ((evm.solver.push).assert a.not) [] = SatResult.sat ∧
       check ((evm.solver.push).assert a.not)
         [Formula.bigAnd (destLoop check ((evm.solver.push).assert a.not) d
           evm.destinations).negs] = SatResult.sat) := by
  have h2 : ¬ evm.stack.length < 2 := by omega
  by_cases hq1 : check evm.solver [(coversCost evm).not] = SatResult.sat <;>
    by_cases hq2 : check evm.solver [coversCost evm] = SatResult.sat <;>
    by_cases hq3 : check ((evm.solver.push).assert a.not) [] = SatResult.sat <;>
    by_cases hqb : check ((evm.solver.push).assert a.not)
      [Formula.bigAnd (destLoop check ((evm.solver.push).assert a.not) d
        evm.destinations).negs] = SatResult.sat <;>
    by_cases hqa : check evm.solver [a] = SatResult.sat <;>
    simp [outcomesGen, h2, hq1, hq2, hq3, hqb, hqa, Solver.push_assert_pop, destLoop_outs]

/-- Characterization of when `Run(Jump(o))` is offered: exactly when the
gas-coverage and jump-scope queries answered `Sat`, `o` is in the table,
and the query `destination == o` answered `Sat`. -/
theorem mem_jump_iff (check : Check) (evm : ZEvm) (d : BVTerm) (a : Formula) (o : Offset)
    (h : 2 ≤ evm.stack.length) :
    Outcome.run (Run.jump o) ∈ (outcomesGen check evm d a).outcomes ↔
      (check evm.solver [coversCost evm] = SatResult.sat ∧
       check ((evm.solver.push).assert a.not) [] = SatResult.sat ∧
       o ∈ evm.destinations ∧
       check ((evm.solver.push).assert a.not) [canJump d o] = SatResult.sat) := by
  have h2 : ¬ evm.stack.length < 2 := by omega
  by_cases hq1 : check evm.solver [(coversCost evm).not] = SatResult.sat <;>
    by_cases hq2 : check evm.solver [coversCost evm] = SatResult.sat <;>
    by_cases hq3 : check ((evm.solver.push).assert a.not) [] = SatResult.sat <;>
    by_cases hqb : check ((evm.solver.push).assert a.not)
      [Formula.bigAnd (destLoop check ((evm.solver.push).assert a.not) d
        evm.destinations).negs] = SatResult.sat <;>
    by_cases hqa : check evm.solver [a] = SatResult.sat <;>
    simp [outcomesGen, h2, hq1, hq2, hq3, hqb, hqa, Solver.push_assert_pop, destLoop_outs,
      List.mem_filter, and_assoc]

/-- The offered jump targets are the table offsets whose query answered
`Sat`, in table order (and none when the jump scope was not entered). -/
theorem jumpTargets_outcomesGen (check : Check) (evm : ZEvm) (d : BVTerm) (a : Formula)
    (h : 2 ≤ evm.stack.length) :
    jumpTargets (outcomesGen check evm d a).outcomes =
      (if check evm.solver [coversCost evm] = SatResult.sat ∧
          check ((evm.solver.push).assert a.not) [] = SatResult.sat then
        evm.destinations.filter
          (fun o => check ((evm.solver.push).assert a.not) [canJump d o] == SatResult.sat)
      else []) := by
  have h2 : ¬ evm.stack.length < 2 := by omega
  by_cases hq1 : check evm.solver [(coversCost evm).not] = SatResult.sat <;>
    by_cases hq2 : check evm.solver [coversCost evm] = SatResult.sat <;>
    by_cases hq3 : check ((evm.solver.push).assert a.not) [] = SatResult.sat <;>
    by_cases hqb : check ((evm.solver.push).assert a.not)
      [Formula.bigAnd (destLoop check ((evm.solver.push).assert a.not) d
        evm.destinations).negs] = SatResult.sat <;>
    by_cases hqa : check evm.solver [a] = SatResult.sat <;>
    simp [outcomesGen, h2, hq1, hq2, hq3, hqb, hqa, Solver.push_assert_pop, destLoop_outs,
      jumpTargets, List.filterMap_append, filterMap_jumpTarget_map, filterMap_jumpTarget_comp,
      jumpTarget]

/-- Claim C5: with stack depth at least two and a solver answering the
out-of-gas query correctly, `Halt(OutOfGas)` is offered exactly when the
negation of `covers_cost = (gas_remaining ≥ 10)` is satisfiable under the
current solver assertions; and with gas fixed at 9 (scenario B),
`outcomes()` returns exactly `[Halt(OutOfGas)]`. -/
theorem c5_out_of_gas :
    (∀ check : Check, ∀ evm : ZEvm, 2 ≤ evm.stack.length →
      (check evm.solver [(coversCost evm).not] = SatResult.sat ↔
        SatQ evm.solver [(coversCost evm).not]) →
      (Outcome.halt Halt.outOfGas ∈ outcomesList check evm ↔
        SatQ evm.solver [(coversCost evm).not])) ∧
    outcomesList checkB evmB = [Outcome.halt Halt.outOfGas] := by
  constructor
  · intro check evm h hiff
    rw [← hiff]
    exact mem_outOfGas_iff check evm (destTerm evm) (advanceFormula evm) h
  · decide

/-- Witness for C5 at scenario B with its semantically correct solver. -/
theorem c5_out_of_gas_witness :
    Outcome.halt Halt.outOfGas ∈ outcomesList checkB evmB ↔
      SatQ evmB.solver [(coversCost evmB).not] :=
  c5_out_of_gas.1 checkB evmB (by decide)
    (Iff.intro (fun _ => ⟨envZero, by decide⟩) (fun _ => by decide))

/-- Claim C4: with stack depth at least two, gas coverage satisfiable, and
a solver answering the issued queries correctly, `Halt(InvalidJumpDest)` is
offered exactly when, within the nested scope assuming the jump is taken,
the conjunction of the accumulated negations over the matched offsets is
satisfiable; and in scenario D (gas 10, destination 29, condition 1, empty
table), `outcomes()` returns exactly `[Halt(InvalidJumpDest)]`. -/
theorem c4_invalid_jumpdest :
    (∀ check : Check, ∀ evm : ZEvm, 2 ≤ evm.stack.length →
      SatQ evm.solver [coversCost evm] →
      (check evm.solver [coversCost evm] = SatResult.sat ↔
        SatQ evm.solver [coversCost evm]) →
      (check (jumpScopeSolver evm) [] = SatResult.sat ↔ SatQ (jumpScopeSolver evm) []) →
      (check (jumpScopeSolver evm)
          [Formula.bigAnd (destLoop check (jumpScopeSolver evm) (destTerm evm)
            evm.destinations).negs] = SatResult.sat ↔
        SatQ (jumpScopeSolver evm)
          [Formula.bigAnd (destLoop check (jumpScopeSolver evm) (destTerm evm)
            evm.destinations).negs]) →
      (Outcome.halt Halt.invalidJumpDest ∈ outcomesList check evm ↔
        SatQ (jumpScopeSolver evm)
          [Formula.bigAnd (destLoop check (jumpScopeSolver evm) (destTerm evm)
            evm.destinations).negs])) ∧
    outcomesList checkD evmD = [Outcome.halt Halt.invalidJumpDest] := by
  constructor
  · intro check evm h hgas hiff2 hiff3 hiffb
    have hmem := mem_invalid_iff check evm (destTerm evm) (advanceFormula evm) h
    constructor
    · intro hx
      exact hiffb.mp (hmem.mp hx).2.2
    · intro hb
      exact hmem.mpr ⟨hiff2.mpr hgas, hiff3.mpr (SatQ_weaken hb), hiffb.mpr hb⟩
  · decide

/-- Witness for C4 at scenario D with its semantically correct solver. -/
theorem c4_invalid_witness :
    Outcome.halt Halt.invalidJumpDest ∈ outcomesList checkD evmD ↔
      SatQ (jumpScopeSolver evmD)
        [Formula.bigAnd (destLoop checkD (jumpScopeSolver evmD) (destTerm evmD)
          evmD.destinations).negs] :=
  c4_invalid_jumpdest.1 checkD evmD (by decide)
    ⟨envZero, by decide⟩
    (Iff.intro (fun _ => ⟨envZero, by decide⟩) (fun _ => by decide))
    (Iff.intro (fun _ => ⟨envZero, by decide⟩) (fun _ => by decide))
    (Iff.intro (fun _ => ⟨envZero, by decide⟩) (fun _ => by decide))

/-- Claim C3: with stack depth at least two, gas coverage satisfiable, a
solver answering the issued queries correctly, and the table sorted by
ascending offset (its iteration order), each valid offset `o` is offered as
`Run(Jump(o))` exactly when `destination == o` is satisfiable within the
nested scope assuming the jump is taken, and the offered jump targets
appear in ascending offset order. -/
theorem c3_jump_enumeration (check : Check) (evm : ZEvm) (o : Offset)
    (h : 2 ≤ evm.stack.length)
    (hgas : SatQ evm.solver [coversCost evm])
    (hiff2 : check evm.solver [coversCost evm] = SatResult.sat ↔
      SatQ evm.solver [coversCost evm])
    (hiff3 : check (jumpScopeSolver evm) [] = SatResult.sat ↔ SatQ (jumpScopeSolver evm) [])
    (hiffo : ∀ o' ∈ evm.destinations,
      (check (jumpScopeSolver evm) [canJump (destTerm evm) o'] = SatResult.sat ↔
        SatQ (jumpScopeSolver evm) [canJump (destTerm evm) o']))
    (hsorted : List.Pairwise (fun x y : Offset => x.val < y.val) evm.destinations)
    (ho : o ∈ evm.destinations) :
    (Outcome.run (Run.jump o) ∈ outcomesList check evm ↔
      SatQ (jumpScopeSolver evm) [canJump (destTerm evm) o]) ∧
    List.Pairwise (fun x y : Offset => x.val < y.val)
      (jumpTargets (outcomesList check evm)) := by
  have hmem := mem_jump_iff check evm (destTerm evm) (advanceFormula evm) o h
  constructor
  · constructor
    · intro hx
      exact (hiffo o ho).mp (hmem.mp hx).2.2.2
    · intro hs
      exact hmem.mpr ⟨hiff2.mpr hgas, hiff3.mpr (SatQ_weaken hs), ho, (hiffo o ho).mpr hs⟩
  · have hjt := jumpTargets_outcomesGen check evm (destTerm evm) (advanceFormula evm) h
    rw [show jumpTargets (outcomesList check evm)
        = jumpTargets (outcomesGen check evm (destTerm evm) (advanceFormula evm)).outcomes
        from rfl, hjt]
    split
    · exact List.Pairwise.sublist (List.filter_sublist _) hsorted
    · exact List.Pairwise.nil

/-- Witness for C3 at scenario E with the always-`sat` solver (correct
there) and offset 1. -/
theorem c3_jump_witness :
    (Outcome.run (Run.jump ⟨1⟩) ∈ outcomesList constSat evmE ↔
      SatQ (jumpScopeSolver evmE) [canJump (destTerm evmE) ⟨1⟩]) ∧
    List.Pairwise (fun x y : Offset => x.val < y.val)
      (jumpTargets (outcomesList constSat evmE)) :=
  c3_jump_enumeration constSat evmE ⟨1⟩ (by decide)
    ⟨envTen, by decide⟩
    (Iff.intro (fun _ => ⟨envTen, by decide⟩) (fun _ => rfl))
    (Iff.intro (fun _ => ⟨envBvOne, by decide⟩) (fun _ => rfl))
    (by
      intro o' ho'
      have ho2 : o' = (⟨1⟩ : Offset) ∨ o' = (⟨2⟩ : Offset) := by
        simpa [evmE] using ho'
      refine Iff.intro (fun _ => ?_) (fun _ => rfl)
      rcases ho2 with rfl | rfl
      · exact ⟨envBvOne, by decide⟩
      · exact ⟨envBv12, by decide⟩)
    (by decide) (by decide)

end Etk
